import Mathlib

/-!
Verification of the TMC Python bridge (`tetra/bash/midi/tmc.py`).

The bridge translates between raw MIDI messages (lists of bytes delivered by
the hardware callback) and a line-oriented text protocol on a Unix socket.
This file gives a shallow embedding of the bridge's codec
(`TMCBridge.format_midi_message`, `TMCBridge.parse_midi_command`), its
hardware callback (`TMCBridge.midi_callback`), its socket read loop
(`TMCBridge.socket_listener`), and the device-initialisation / thread-start
logic of `TMCBridge.init_midi` / `TMCBridge.run`, together with theorems
about the specified behaviour.

Modelling conventions:
* Python strings are `List Char` (`Chars`); `str.split()` (split on runs of
  whitespace, dropping empty pieces) is `pySplit`; `int(token)` is `pyInt`
  (an optional sign followed by decimal digits; any other shape raises
  `ValueError`, modelled as `none`).
* f-string interpolation of a nonnegative integer is `natChars` (decimal)
  and `hex2` (the `{status:02X}` format).
* Python's arbitrary-precision `&` and `|` on possibly negative integers are
  `Int.land` / `Int.lor` (two's-complement semantics, as in Python).
* A Python function that can raise returns `Except Unit _` (`.error ()` is an
  uncaught exception such as `IndexError`); code wrapped in `try/except`
  that swallows the exception returns `Option`.
-/

namespace TMC

abbrev Chars := List Char

/-- The character list underlying a string literal. -/
def strToChars (s : String) : Chars := s.data

/-- Whitespace as recognised by Python's `str.split()` / `str.strip()`
(restricted to the characters that can actually occur on this wire:
space, newline, tab, carriage return). -/
def isWs (c : Char) : Bool := c = ' ' || c = '\n' || c = '\t' || c = '\r'

/-- Worker for `pySplit`: `acc` holds the (reversed) token currently being
scanned. -/
def splitWsAux : Chars → Chars → List Chars
  | [], acc => if acc = [] then [] else [acc.reverse]
  | c :: rest, acc =>
    if isWs c then
      if acc = [] then splitWsAux rest []
      else acc.reverse :: splitWsAux rest []
    else splitWsAux rest (c :: acc)

/-- Python `s.strip().split()` (as used in `parse_midi_command`): split on
runs of whitespace, discarding empty pieces.  Since `split()` with no
argument already ignores leading and trailing whitespace, the preceding
`strip()` does not change the result, and a single function models both. -/
def pySplit (s : Chars) : List Chars := splitWsAux s []

/-- The decimal digit character for `d < 10`. -/
def digitChar (d : Nat) : Char := Char.ofNat (48 + d)

/-- Fuelled decimal rendering (the fuel makes the definition structurally
recursive, hence kernel-reducible). -/
def natCharsAux : Nat → Nat → Chars
  | 0, _ => []
  | fuel + 1, n =>
    if n < 10 then [digitChar n]
    else natCharsAux fuel (n / 10) ++ [digitChar (n % 10)]

/-- Decimal rendering of a nonnegative integer, as produced by Python
f-string interpolation `{n}`. -/
def natChars (n : Nat) : Chars := natCharsAux (n + 1) n

/-- The uppercase hexadecimal digit character for `d < 16`. -/
def hexDigitChar (d : Nat) : Char :=
  if d < 10 then Char.ofNat (48 + d) else Char.ofNat (55 + d)

/-- Fuelled uppercase hexadecimal rendering. -/
def hexCharsAux : Nat → Nat → Chars
  | 0, _ => []
  | fuel + 1, n =>
    if n < 16 then [hexDigitChar n]
    else hexCharsAux fuel (n / 16) ++ [hexDigitChar (n % 16)]

/-- Uppercase hexadecimal rendering of a nonnegative integer. -/
def hexChars (n : Nat) : Chars := hexCharsAux (n + 1) n

/-- Python's `{n:02X}` format: uppercase hex, left-padded with `'0'` to at
least two characters. -/
def hex2 (n : Nat) : Chars :=
  let h := hexChars n
  List.replicate (2 - h.length) '0' ++ h

/-- Join tokens with single spaces (the shape of every f-string template in
`format_midi_message`: `"VERB {a} {b}"`). -/
def joinTokens : List Chars → Chars
  | [] => []
  | [t] => t
  | t :: t' :: ts => t ++ ' ' :: joinTokens (t' :: ts)

/-- A full protocol line: space-joined tokens plus the trailing `"\n"` of
every template in `format_midi_message`. -/
def lineOf (ts : List Chars) : Chars := joinTokens ts ++ ['\n']

/-- Worker for `pyNat`: fold decimal digits left to right; a non-digit
character makes the whole conversion fail. -/
def pyNatCore : Chars → Nat → Option Nat
  | [], acc => some acc
  | c :: rest, acc =>
    if c.isDigit then pyNatCore rest (acc * 10 + (c.toNat - 48)) else none

/-- An unsigned decimal numeral: nonempty and all digits. -/
def pyNat (s : Chars) : Option Nat :=
  match s with
  | [] => none
  | _ :: _ => pyNatCore s 0

/-- Python `int(token)` restricted to the token shapes reaching it here: an
optional `'-'` or `'+'` sign followed by decimal digits; everything else
raises `ValueError`, modelled as `none`. -/
def pyInt (s : Chars) : Option Int :=
  match s with
  | [] => none
  | c :: rest =>
    if c = '-' then (pyNat rest).map (fun n => -(n : Int))
    else if c = '+' then (pyNat rest).map (fun n => (n : Int))
    else (pyNat (c :: rest)).map (fun n => (n : Int))

/-! ### The codec (`TMCBridge.format_midi_message` / `TMCBridge.parse_midi_command`) -/

/-- `TMCBridge.format_midi_message(message)`: format a raw MIDI message
(list of bytes from the hardware callback) as a socket line.

`.ok none` is Python's `return None` on an empty message; `.ok (some l)` is
a returned line; `.error ()` is an uncaught `IndexError` from subscripting
`message[1]` / `message[2]` in an f-string when the message is shorter than
the recognised status byte requires (only the `UNKNOWN` branch guards its
subscripts with `len(message)` checks). -/
def format_midi_message (message : List Nat) : Except Unit (Option Chars) :=
  match message with
  | [] => .ok none
  | status :: rest =>
    let msgType := status &&& 0xF0
    let channel := (status &&& 0x0F) + 1
    if msgType = 0x80 then
      match rest with
      | d1 :: _ =>
        .ok (some (lineOf [strToChars "NOTE_OFF", natChars channel, natChars d1]))
      | [] => .error ()
    else if msgType = 0x90 then
      match rest with
      | d1 :: d2 :: _ =>
        if d2 = 0 then
          .ok (some (lineOf [strToChars "NOTE_OFF", natChars channel, natChars d1]))
        else
          .ok (some (lineOf [strToChars "NOTE_ON", natChars channel, natChars d1, natChars d2]))
      | _ => .error ()
    else if msgType = 0xB0 then
      match rest with
      | d1 :: d2 :: _ =>
        .ok (some (lineOf [strToChars "CC", natChars channel, natChars d1, natChars d2]))
      | _ => .error ()
    else if msgType = 0xC0 then
      match rest with
      | d1 :: _ =>
        .ok (some (lineOf [strToChars "PROGRAM_CHANGE", natChars channel, natChars d1]))
      | [] => .error ()
    else if msgType = 0xE0 then
      match rest with
      | d1 :: d2 :: _ =>
        .ok (some (lineOf [strToChars "PITCH_BEND", natChars channel, natChars ((d2 <<< 7) ||| d1)]))
      | _ => .error ()
    else
      .ok (some (lineOf [strToChars "UNKNOWN", hex2 status,
        natChars (rest.headD 0), natChars ((rest.drop 1).headD 0)]))

/-- `TMCBridge.parse_midi_command(line)`: parse one socket line and send the
resulting raw MIDI message to the output port.

`hasMidiOut` is the truthiness of `self.midi_out`.  The result is the byte
list passed to `self.midi_out.send_message`, or `none` when nothing is sent:
empty token list, no output device, unrecognised verb, too few arguments
(a verb equal to one string cannot satisfy another `elif` arm, so a failed
arity check falls through to `return None`), or a `ValueError` from `int()`
— the latter is swallowed by the surrounding `try/except`. -/
def parse_midi_command (hasMidiOut : Bool) (line : Chars) : Option (List Int) :=
  match pySplit line, hasMidiOut with
  | [], _ => none
  | _ :: _, false => none
  | cmd :: args, true =>
    if cmd = strToChars "CC" then
      match args with
      | t1 :: t2 :: t3 :: _ => do
        let channel := (← pyInt t1) - 1
        let controller ← pyInt t2
        let value ← pyInt t3
        some [Int.lor 0xB0 (Int.land channel 0x0F), Int.land controller 0x7F,
          Int.land value 0x7F]
      | _ => none
    else if cmd = strToChars "NOTE_ON" then
      match args with
      | t1 :: t2 :: t3 :: _ => do
        let channel := (← pyInt t1) - 1
        let note ← pyInt t2
        let velocity ← pyInt t3
        some [Int.lor 0x90 (Int.land channel 0x0F), Int.land note 0x7F,
          Int.land velocity 0x7F]
      | _ => none
    else if cmd = strToChars "NOTE_OFF" then
      match args with
      | t1 :: t2 :: _ => do
        let channel := (← pyInt t1) - 1
        let note ← pyInt t2
        some [Int.lor 0x80 (Int.land channel 0x0F), Int.land note 0x7F, 0]
      | _ => none
    else if cmd = strToChars "PROGRAM_CHANGE" then
      match args with
      | t1 :: t2 :: _ => do
        let channel := (← pyInt t1) - 1
        let program ← pyInt t2
        some [Int.lor 0xC0 (Int.land channel 0x0F), Int.land program 0x7F]
      | _ => none
    else none

/-! ### The hardware callback (`TMCBridge.midi_callback`) -/

/-- The mutable bridge fields `midi_callback` touches: the `running` flag and
whether `self.sock` is set. -/
structure BridgeState where
  running : Bool
  sockPresent : Bool
deriving DecidableEq

/-- `TMCBridge.midi_callback`: format the incoming message; if a line was
produced and the socket exists, send it; a send failure (`sendOk = false`)
prints an error and clears `self.running`.  An exception raised by
`format_midi_message` itself is not caught here and propagates (`.error`). -/
def midi_callback (st : BridgeState) (message : List Nat) (sendOk : Bool) :
    Except Unit BridgeState :=
  match format_midi_message message with
  | .error () => .error ()
  | .ok none => .ok st
  | .ok (some _) =>
    if st.sockPresent then
      if sendOk then .ok st
      else .ok { st with running := false }
    else .ok st

/-! ### The socket read loop (`TMCBridge.socket_listener`) -/

/-- One result of `self.sock.recv(1024)` inside the listener's `try`:
a chunk of bytes, a zero-byte read (peer closed), or a raised exception
(covering both `recv` and `decode` failures). -/
inductive RecvResult where
  | chunk : Chars → RecvResult
  | closed : RecvResult
  | ioError : RecvResult
deriving DecidableEq

/-- Python `buffer.split('\n')`: `n` separators yield `n + 1` pieces.  The
listener's inner `while '\n' in buffer` loop consumes exactly the pieces
before the last separator and leaves the final piece as the new buffer. -/
def splitNl : Chars → List Chars
  | [] => [[]]
  | c :: rest =>
    match splitNl rest with
    | [] => [[]]
    | p :: ps => if c = '\n' then [] :: p :: ps else (c :: p) :: ps

/-- Result of running `socket_listener` against a finite script of reads. -/
structure ListenerOutcome where
  /-- The `while` loop ended (by `break` or by `self.running` being false)
  before the script was exhausted (`true`), or the script ran out with the
  loop still blocked on the next `recv` (`false`). -/
  exited : Bool
  /-- The value of `self.running` when the run stopped. -/
  running : Bool
  /-- The byte lists passed to `send_message`, in order. -/
  sent : List (List Int)
deriving DecidableEq

/-- `TMCBridge.socket_listener`, run against a finite script of `recv`
results.  Faithful control flow: `while self.running:`; `if not data: break`;
buffered line extraction on `'\n'`; `if line: self.parse_midi_command(line)`;
`except ...: break`.  Note that no branch assigns `self.running`. -/
def socket_listener (hasMidiOut : Bool) (running : Bool) :
    Chars → List RecvResult → ListenerOutcome
  | _, [] => if running then ⟨false, running, []⟩ else ⟨true, running, []⟩
  | buffer, ev :: evs =>
    if running then
      match ev with
      | .closed => ⟨true, running, []⟩
      | .ioError => ⟨true, running, []⟩
      | .chunk data =>
        if data = [] then ⟨true, running, []⟩
        else
          let pieces := splitNl (buffer ++ data)
          let lines := pieces.dropLast
          let buffer' := pieces.getLastD []
          let sends := lines.filterMap
            (fun l => if l = [] then none else parse_midi_command hasMidiOut l)
          let rest := socket_listener hasMidiOut running buffer' evs
          ⟨rest.exited, rest.running, sends ++ rest.sent⟩
    else ⟨true, running, []⟩

/-! ### Device initialisation and thread start (`TMCBridge.init_midi` / `TMCBridge.run`) -/

/-- The fields of the bridge set by `init_midi`: whether `self.midi_in` /
`self.midi_out` are non-`None`, and whether each port was actually opened. -/
structure MidiInit where
  midiIn : Bool
  inputOpened : Bool
  midiOut : Bool
  outputOpened : Bool
deriving DecidableEq

/-- `TMCBridge.init_midi`, given the requested device ids and the numbers of
available input/output ports.  A negative id auto-selects port 0 when any
port exists and otherwise sets the handle to `None`; the port is opened only
when the handle exists and the id is within range. -/
def init_midi (inputDeviceId outputDeviceId : Int) (numInputs numOutputs : Nat) : MidiInit :=
  let inSel : Bool × Int :=
    if inputDeviceId < 0 then
      if numInputs ≠ 0 then (true, 0) else (false, inputDeviceId)
    else (true, inputDeviceId)
  let midiIn := inSel.1
  let inputOpened := midiIn && decide (inSel.2 < (numInputs : Int))
  let outSel : Bool × Int :=
    if outputDeviceId < 0 then
      if numOutputs ≠ 0 then (true, 0) else (false, outputDeviceId)
    else (true, outputDeviceId)
  let midiOut := outSel.1
  let outputOpened := midiOut && decide (outSel.2 < (numOutputs : Int))
  ⟨midiIn, inputOpened, midiOut, outputOpened⟩

/-- `TMCBridge.run` after a successful `connect_socket`: the socket-listener
thread is started under the guard `if self.midi_out:`. -/
def run_starts_listener (inputDeviceId outputDeviceId : Int)
    (numInputs numOutputs : Nat) : Bool :=
  (init_midi inputDeviceId outputDeviceId numInputs numOutputs).midiOut


/-! ### Argument-count / data-length tables implicit in the code's branch guards -/

/-- The number of arguments after the verb that `parse_midi_command` requires
(`len(parts) >= 4` for `CC` / `NOTE_ON`, `>= 3` for `NOTE_OFF` /
`PROGRAM_CHANGE`). -/
def requiredArgs (cmd : Chars) : Nat :=
  if cmd = strToChars "CC" ∨ cmd = strToChars "NOTE_ON" then 3
  else if cmd = strToChars "NOTE_OFF" ∨ cmd = strToChars "PROGRAM_CHANGE" then 2
  else 0

/-- The number of data bytes `format_midi_message` subscripts without a
length guard, per recognised message type. -/
def requiredDataLen (msgType : Nat) : Nat :=
  if msgType = 0x80 then 1
  else if msgType = 0x90 then 2
  else if msgType = 0xB0 then 2
  else if msgType = 0xC0 then 1
  else if msgType = 0xE0 then 2
  else 0

/-- Whether a masked status nibble is one of the five recognised message
types (everything else lands in the `UNKNOWN` branch). -/
def isKnownType (msgType : Nat) : Bool :=
  msgType = 0x80 || msgType = 0x90 || msgType = 0xB0 || msgType = 0xC0 || msgType = 0xE0

/-! ### Basic facts about the token utilities -/

theorem splitWsAux_append_token (t : Chars) (hws : ∀ c ∈ t, isWs c = false) :
    ∀ (rest acc : Chars), splitWsAux (t ++ rest) acc = splitWsAux rest (t.reverse ++ acc) := by
  induction t with
  | nil => intro rest acc; simp [splitWsAux]
  | cons c t ih =>
    intro rest acc
    have hc : isWs c = false := hws c (List.mem_cons_self c t)
    have ht : ∀ x ∈ t, isWs x = false := fun x hx => hws x (List.mem_cons_of_mem c hx)
    have hstep : splitWsAux ((c :: t) ++ rest) acc = splitWsAux (t ++ rest) (c :: acc) := by
      simp [splitWsAux, hc]
    rw [hstep, ih ht rest (c :: acc)]
    simp

theorem pySplit_lineOf (ts : List Chars)
    (h : ∀ t ∈ ts, t ≠ [] ∧ ∀ c ∈ t, isWs c = false) :
    pySplit (lineOf ts) = ts := by
  induction ts with
  | nil => simp [pySplit, lineOf, joinTokens, splitWsAux, isWs]
  | cons t ts ih =>
    have ht : t ≠ [] ∧ ∀ c ∈ t, isWs c = false := h t (List.mem_cons_self t ts)
    have hrev : t.reverse ≠ [] := by
      intro hc; exact ht.1 (by simpa using congrArg List.reverse hc)
    cases ts with
    | nil =>
      simp only [lineOf, joinTokens, pySplit]
      rw [splitWsAux_append_token t ht.2]
      simp [splitWsAux, isWs, hrev]
    | cons t' ts' =>
      have hrest : ∀ x ∈ t' :: ts', x ≠ [] ∧ ∀ c ∈ x, isWs c = false :=
        fun x hx => h x (List.mem_cons_of_mem t hx)
      simp only [lineOf, joinTokens, pySplit] at ih ⊢
      rw [List.append_assoc, splitWsAux_append_token t ht.2]
      show splitWsAux (' ' :: (joinTokens (t' :: ts') ++ ['\n'])) (t.reverse ++ []) = _
      simp only [List.append_nil, splitWsAux, isWs]
      simp only [if_pos rfl, Bool.true_or, if_true, hrev, if_false, List.reverse_reverse]
      exact congrArg (t :: ·) (ih hrest)

theorem natCharsAux_stable : ∀ (f g n : Nat), n < f → n < g →
    natCharsAux f n = natCharsAux g n := by
  intro f
  induction f with
  | zero => intro g n hf; omega
  | succ f ih =>
    intro g n hf hg
    cases g with
    | zero => omega
    | succ g =>
      by_cases h10 : n < 10
      · simp [natCharsAux, h10]
      · have hn : 0 < n := by omega
        have hdiv : n / 10 < n := Nat.div_lt_self hn (by norm_num)
        simp only [natCharsAux, h10, if_false]
        rw [ih g (n / 10) (by omega) (by omega)]

/-- The clean recursion equation for `natChars`. -/
theorem natChars_eq (n : Nat) :
    natChars n = if n < 10 then [digitChar n] else natChars (n / 10) ++ [digitChar (n % 10)] := by
  by_cases h10 : n < 10
  · simp [natChars, natCharsAux, h10]
  · have hdiv : n / 10 < n := Nat.div_lt_self (by omega) (by norm_num)
    rw [if_neg h10]
    show natCharsAux (n + 1) n = _
    rw [show natCharsAux (n + 1) n
        = if n < 10 then [digitChar n] else natCharsAux n (n / 10) ++ [digitChar (n % 10)] from rfl]
    rw [if_neg h10, natCharsAux_stable n (n / 10 + 1) (n / 10) (by omega) (by omega)]
    rfl

theorem digitChar_props : ∀ d < 10, (digitChar d).isDigit = true ∧ isWs (digitChar d) = false ∧
    digitChar d ≠ '-' ∧ digitChar d ≠ '+' ∧ (digitChar d).toNat - 48 = d := by decide

theorem natChars_mem (n : Nat) : ∀ c ∈ natChars n, ∃ d, d < 10 ∧ c = digitChar d := by
  induction n using Nat.strong_induction_on with
  | _ n ih =>
    rw [natChars_eq]
    by_cases h10 : n < 10
    · simp only [h10, if_true]
      intro c hc
      simp only [List.mem_singleton] at hc
      exact ⟨n, h10, hc⟩
    · have hn : 0 < n := by omega
      have hdiv : n / 10 < n := Nat.div_lt_self hn (by norm_num)
      simp only [h10, if_false]
      intro c hc
      rcases List.mem_append.mp hc with h | h
      · exact ih (n / 10) hdiv c h
      · simp only [List.mem_singleton] at h
        exact ⟨n % 10, Nat.mod_lt _ (by norm_num), h⟩

theorem natChars_ne_nil (n : Nat) : natChars n ≠ [] := by
  rw [natChars_eq]
  by_cases h10 : n < 10 <;> simp [h10]

theorem pyNatCore_append (a b : Chars) : ∀ acc, pyNatCore (a ++ b) acc =
    match pyNatCore a acc with
    | none => none
    | some acc' => pyNatCore b acc' := by
  induction a with
  | nil => intro acc; simp [pyNatCore]
  | cons c a ih =>
    intro acc
    by_cases hd : c.isDigit
    · simp only [List.cons_append, pyNatCore, hd, if_true]
      exact ih _
    · simp [pyNatCore, hd]

theorem pyNatCore_natChars (n : Nat) : ∀ acc,
    pyNatCore (natChars n) acc = some (acc * 10 ^ (natChars n).length + n) := by
  induction n using Nat.strong_induction_on with
  | _ n ih =>
    intro acc
    rw [natChars_eq]
    by_cases h10 : n < 10
    · obtain ⟨hdig, -, -, -, hval⟩ := digitChar_props n h10
      simp [h10, pyNatCore, hdig, hval]
    · have hn : 0 < n := by omega
      have hdiv : n / 10 < n := Nat.div_lt_self hn (by norm_num)
      obtain ⟨hdig, -, -, -, hval⟩ := digitChar_props (n % 10) (Nat.mod_lt _ (by norm_num))
      simp only [h10, if_false]
      rw [pyNatCore_append]
      rw [ih (n / 10) hdiv acc]
      simp only [pyNatCore, hdig, if_true, hval]
      congr 1
      simp only [List.length_append, List.length_singleton, pow_succ]
      generalize (natChars (n / 10)).length = L
      generalize 10 ^ L = P
      rw [Nat.add_mul, ← Nat.mul_assoc, Nat.add_assoc]
      congr 1
      omega

theorem pyNat_natChars (n : Nat) : pyNat (natChars n) = some n := by
  obtain ⟨c, r, hcr⟩ := List.exists_cons_of_ne_nil (natChars_ne_nil n)
  have h0 := pyNatCore_natChars n 0
  rw [hcr] at h0 ⊢
  show pyNatCore (c :: r) 0 = some n
  rw [h0]
  simp

theorem pyInt_natChars (n : Nat) : pyInt (natChars n) = some (n : Int) := by
  obtain ⟨c, r, hcr⟩ := List.exists_cons_of_ne_nil (natChars_ne_nil n)
  have hc : c ∈ natChars n := by rw [hcr]; exact List.mem_cons_self c r
  obtain ⟨d, hd10, hcd⟩ := natChars_mem n c hc
  obtain ⟨-, -, hminus, hplus, -⟩ := digitChar_props d hd10
  have hcm : c ≠ '-' := by rw [hcd]; exact hminus
  have hcp : c ≠ '+' := by rw [hcd]; exact hplus
  have hpn := pyNat_natChars n
  rw [hcr] at hpn ⊢
  show (if c = '-' then (pyNat r).map (fun n => -(n : Int))
        else if c = '+' then (pyNat r).map (fun n => (n : Int))
        else (pyNat (c :: r)).map (fun n => (n : Int))) = some (n : Int)
  rw [if_neg hcm, if_neg hcp, hpn]
  rfl

theorem natChars_ws_free (n : Nat) : ∀ c ∈ natChars n, isWs c = false := by
  intro c hc
  obtain ⟨d, hd10, hcd⟩ := natChars_mem n c hc
  obtain ⟨-, hws, -, -, -⟩ := digitChar_props d hd10
  rw [hcd]; exact hws

/-! ### Python bitwise `&` / `|` on arbitrary integers

Python's `x & m` and `x | m` act on the infinite two's-complement bit
strings of arbitrary-precision integers; `Int.land` / `Int.lor` have exactly
these semantics.  The lemmas below identify masking by an all-ones constant
with the (always nonnegative) euclidean remainder, which is how the rest of
the development states masking. -/

theorem ldiff_pow_sub_one (k m : Nat)
    (hfin : ∀ r < 2 ^ k, ∀ i < k, Nat.testBit (2 ^ k - 1 - r) i = !(Nat.testBit r i)) :
    Nat.ldiff (2 ^ k - 1) m = 2 ^ k - 1 - m % 2 ^ k := by
  apply Nat.eq_of_testBit_eq
  intro i
  rw [Nat.testBit_ldiff]
  by_cases hi : i < k
  · have hm : Nat.testBit m i = Nat.testBit (m % 2 ^ k) i := by
      rw [Nat.testBit_mod_two_pow]
      simp [hi]
    have hr : m % 2 ^ k < 2 ^ k := Nat.mod_lt _ (Nat.two_pow_pos k)
    rw [hm, hfin _ hr _ hi, Nat.testBit_two_pow_sub_one]
    simp [hi]
  · have hlt : 2 ^ k ≤ 2 ^ i := Nat.pow_le_pow_right (by norm_num) (by omega)
    have hpos : 0 < 2 ^ k := Nat.two_pow_pos k
    have hb1 : 2 ^ k - 1 < 2 ^ i := by omega
    have hb2 : 2 ^ k - 1 - m % 2 ^ k < 2 ^ i := by omega
    have h1 : Nat.testBit (2 ^ k - 1) i = false := Nat.testBit_lt_two_pow hb1
    have h2 : Nat.testBit (2 ^ k - 1 - m % 2 ^ k) i = false := Nat.testBit_lt_two_pow hb2
    simp [h1, h2]

theorem ldiff_fifteen (m : Nat) : Nat.ldiff 15 m = 15 - m % 16 := by
  have h := ldiff_pow_sub_one 4 m (by decide)
  norm_num at h
  exact h

theorem ldiff_one27 (m : Nat) : Nat.ldiff 127 m = 127 - m % 128 := by
  have h := ldiff_pow_sub_one 7 m (by decide)
  norm_num at h
  exact h

/-- Python `x & 0x0F` is the remainder mod 16, for every integer `x`. -/
theorem land_fifteen (x : Int) : Int.land x 15 = x % 16 := by
  cases x with
  | ofNat n =>
    show Int.ofNat (n &&& 15) = Int.ofNat n % 16
    have h : n &&& 15 = n % 16 := by
      have := Nat.and_pow_two_sub_one_eq_mod n 4
      norm_num at this
      exact this
    rw [h, Int.ofNat_eq_natCast, Int.ofNat_eq_natCast]
    omega
  | negSucc m =>
    show Int.ofNat (Nat.ldiff 15 m) = Int.negSucc m % 16
    rw [ldiff_fifteen, Int.ofNat_eq_natCast, Int.negSucc_eq]
    omega

/-- Python `x & 0x7F` is the remainder mod 128, for every integer `x`. -/
theorem land_one27 (x : Int) : Int.land x 127 = x % 128 := by
  cases x with
  | ofNat n =>
    show Int.ofNat (n &&& 127) = Int.ofNat n % 128
    have h : n &&& 127 = n % 128 := by
      have := Nat.and_pow_two_sub_one_eq_mod n 7
      norm_num at this
      exact this
    rw [h, Int.ofNat_eq_natCast, Int.ofNat_eq_natCast]
    omega
  | negSucc m =>
    show Int.ofNat (Nat.ldiff 127 m) = Int.negSucc m % 128
    rw [ldiff_one27, Int.ofNat_eq_natCast, Int.negSucc_eq]
    omega

/-- ORing a status base whose low nibble is clear with a channel nibble in
`[0, 16)` is plain addition (`0xB0 | nibble` etc.). -/
theorem land_fifteen_bounds (x : Int) : 0 ≤ Int.land x 15 ∧ Int.land x 15 < 16 := by
  rw [land_fifteen]
  exact ⟨Int.emod_nonneg x (by norm_num), Int.emod_lt_of_pos x (by norm_num)⟩

theorem land_one27_bounds (x : Int) : 0 ≤ Int.land x 127 ∧ Int.land x 127 < 128 := by
  rw [land_one27]
  exact ⟨Int.emod_nonneg x (by norm_num), Int.emod_lt_of_pos x (by norm_num)⟩

theorem lor_status (S : Nat) (hfin : ∀ n < 16, S ||| n = S + n)
    (x : Int) (h0 : 0 ≤ x) (h16 : x < 16) : Int.lor (Int.ofNat S) x = Int.ofNat S + x := by
  obtain ⟨n, rfl⟩ : ∃ n : Nat, x = Int.ofNat n := ⟨x.toNat, (Int.toNat_of_nonneg h0).symm⟩
  have hn : n < 16 := by
    rw [Int.ofNat_eq_natCast] at h16
    exact_mod_cast h16
  show Int.ofNat (S ||| n) = _
  rw [hfin n hn]
  exact Int.ofNat_add S n

theorem lor_B0_land (x : Int) : Int.lor 0xB0 (Int.land x 15) = 0xB0 + x % 16 := by
  obtain ⟨h0, h16⟩ := land_fifteen_bounds x
  rw [land_fifteen] at h0 h16 ⊢
  exact lor_status 0xB0 (by decide) (x % 16) h0 h16

theorem lor_90_land (x : Int) : Int.lor 0x90 (Int.land x 15) = 0x90 + x % 16 := by
  obtain ⟨h0, h16⟩ := land_fifteen_bounds x
  rw [land_fifteen] at h0 h16 ⊢
  exact lor_status 0x90 (by decide) (x % 16) h0 h16

theorem lor_80_land (x : Int) : Int.lor 0x80 (Int.land x 15) = 0x80 + x % 16 := by
  obtain ⟨h0, h16⟩ := land_fifteen_bounds x
  rw [land_fifteen] at h0 h16 ⊢
  exact lor_status 0x80 (by decide) (x % 16) h0 h16

theorem lor_C0_land (x : Int) : Int.lor 0xC0 (Int.land x 15) = 0xC0 + x % 16 := by
  obtain ⟨h0, h16⟩ := land_fifteen_bounds x
  rw [land_fifteen] at h0 h16 ⊢
  exact lor_status 0xC0 (by decide) (x % 16) h0 h16

/-! ### Small evaluation facts -/

theorem noteoff_chars : strToChars "NOTE_OFF" = ['N', 'O', 'T', 'E', '_', 'O', 'F', 'F'] := rfl

theorem noteon_chars : strToChars "NOTE_ON" = ['N', 'O', 'T', 'E', '_', 'O', 'N'] := rfl

theorem status_90_nibbles : ∀ c < 16, (144 + c) &&& 240 = 144 ∧ (144 + c) &&& 15 = c := by
  decide

theorem verb_tokens_wf :
    ∀ v ∈ [strToChars "CC", strToChars "NOTE_ON", strToChars "NOTE_OFF",
      strToChars "PROGRAM_CHANGE", strToChars "PITCH_BEND", strToChars "UNKNOWN"],
      v ≠ [] ∧ ∀ c ∈ v, isWs c = false := by decide

theorem splitNl_append_nl (l : Chars) (h : '\n' ∉ l) : splitNl (l ++ ['\n']) = [l, []] := by
  induction l with
  | nil => rfl
  | cons c l ih =>
    have hc : c ≠ '\n' := fun he => h (he ▸ List.mem_cons_self c l)
    have hl : '\n' ∉ l := fun hm => h (List.mem_cons_of_mem c hm)
    simp only [List.cons_append, splitNl, List.append_eq]
    rw [ih hl]
    simp [hc]

/-! ### Claim theorems -/

/-- Claim C1, counterexample: when `recv` returns zero bytes (peer closed),
the read loop does exit, but the `running` flag is NOT cleared — it is still
`true` — contrary to the claim that it becomes false.  (`socket_listener`
only `break`s; no branch assigns `self.running`.) -/
theorem C1_counterexample :
    (socket_listener true true [] [RecvResult.closed]).exited = true ∧
    (socket_listener true true [] [RecvResult.closed]).running ≠ false := by decide

/-- Claim C1, amended: when the read returns zero bytes or raises, the read
loop exits immediately (nothing further is sent), but the `running` flag is
left unchanged (still `true`); ports and socket are closed only when
`cleanup` later runs, which this exit does not itself trigger. -/
theorem C1_loop_exit_keeps_running (hasMidiOut : Bool) (buffer : Chars)
    (ev : RecvResult) (evs : List RecvResult)
    (hev : ev = RecvResult.closed ∨ ev = RecvResult.ioError) :
    socket_listener hasMidiOut true buffer (ev :: evs) = ⟨true, true, []⟩ := by
  rcases hev with rfl | rfl <;> simp [socket_listener]

/-- Witness for C1: concrete instance of the amended claim. -/
theorem C1_witness :
    socket_listener false true ['x'] [RecvResult.ioError, RecvResult.chunk ['a']]
      = ⟨true, true, []⟩ :=
  C1_loop_exit_keeps_running false ['x'] RecvResult.ioError [RecvResult.chunk ['a']]
    (Or.inr rfl)

/-- Claim C2, counterexample: with no MIDI output device available and no
explicit output id (`-1`), `self.midi_out` is `None` and `run` does NOT
start the socket-listener thread (`if self.midi_out:` guard) — contrary to
the claim that the background read loop is still started. -/
theorem C2_counterexample : run_starts_listener (-1) (-1) 1 0 = false := by decide

/-- Claim C2, amended: `run` starts the background socket-listener thread
iff `self.midi_out` is non-`None`, i.e. iff an output id was given
explicitly (`0 ≤ o`) or some output port exists; when `self.midi_out` is
`None` no listener is started (and `parse_midi_command` would drop every
decoded command anyway). -/
theorem C2_listener_requires_output (i o : Int) (ni no : Nat) :
    run_starts_listener i o ni no = (decide (0 ≤ o) || decide (no ≠ 0)) ∧
    ∀ line, parse_midi_command false line = none := by
  constructor
  · unfold run_starts_listener init_midi
    by_cases ho : o < 0
    · have h1 : ¬(0 ≤ o) := by omega
      by_cases hno : no = 0
      · simp [ho, hno, h1]
      · simp [ho, hno, h1]
    · have h1 : 0 ≤ o := by omega
      simp [ho, h1]
  · intro line
    unfold parse_midi_command
    cases pySplit line <;> rfl

/-- Claim C3, counterexample: a recognised status byte with too few data
bytes makes `format_midi_message` raise `IndexError` (here a bare Note Off
status `[0x80]`), so the encode direction is not total on `any status byte
with 0, 1 or 2 trailing data bytes`. -/
theorem C3_counterexample : format_midi_message [0x80] = .error () := rfl

/-- Claim C3, amended: `format_midi_message` returns a defined textual
encoding whenever the message carries the data bytes its (masked) status
type subscripts without a guard — 1 for NoteOff/ProgramChange, 2 for
NoteOn/ControlChange/PitchBend, 0 for unknown statuses — and for an unknown
status byte the missing trailing bytes are defaulted to 0. -/
theorem C3_format_total_on_complete (status : Nat) (rest : List Nat)
    (h : requiredDataLen (status &&& 0xF0) ≤ rest.length) :
    (∃ l, format_midi_message (status :: rest) = .ok (some l)) ∧
    (isKnownType (status &&& 0xF0) = false →
      format_midi_message (status :: rest) = .ok (some (lineOf [strToChars "UNKNOWN",
        hex2 status, natChars (rest.headD 0), natChars ((rest.drop 1).headD 0)]))) := by
  by_cases h80 : status &&& 0xF0 = 0x80
  · rw [requiredDataLen, if_pos h80] at h
    rcases rest with _ | ⟨d1, rest'⟩
    · simp at h
    · refine ⟨⟨lineOf [strToChars "NOTE_OFF", natChars ((status &&& 0x0F) + 1),
        natChars d1], by simp [format_midi_message, h80]⟩, fun hk => ?_⟩
      rw [isKnownType] at hk
      simp [h80] at hk
  · by_cases h90 : status &&& 0xF0 = 0x90
    · rw [requiredDataLen, if_neg h80, if_pos h90] at h
      rcases rest with _ | ⟨d1, _ | ⟨d2, rest'⟩⟩
      · simp at h
      · simp at h
      · refine ⟨?_, fun hk => ?_⟩
        · by_cases hz : d2 = 0
          · exact ⟨lineOf [strToChars "NOTE_OFF", natChars ((status &&& 0x0F) + 1),
              natChars d1], by simp [format_midi_message, h80, h90, hz]⟩
          · exact ⟨lineOf [strToChars "NOTE_ON", natChars ((status &&& 0x0F) + 1),
              natChars d1, natChars d2], by simp [format_midi_message, h80, h90, hz]⟩
        · rw [isKnownType] at hk
          simp [h90] at hk
    · by_cases hB0 : status &&& 0xF0 = 0xB0
      · rw [requiredDataLen, if_neg h80, if_neg h90, if_pos hB0] at h
        rcases rest with _ | ⟨d1, _ | ⟨d2, rest'⟩⟩
        · simp at h
        · simp at h
        · refine ⟨⟨lineOf [strToChars "CC", natChars ((status &&& 0x0F) + 1),
            natChars d1, natChars d2], by simp [format_midi_message, h80, h90, hB0]⟩,
            fun hk => ?_⟩
          rw [isKnownType] at hk
          simp [hB0] at hk
      · by_cases hC0 : status &&& 0xF0 = 0xC0
        · rw [requiredDataLen, if_neg h80, if_neg h90, if_neg hB0, if_pos hC0] at h
          rcases rest with _ | ⟨d1, rest'⟩
          · simp at h
          · refine ⟨⟨lineOf [strToChars "PROGRAM_CHANGE", natChars ((status &&& 0x0F) + 1),
              natChars d1], by simp [format_midi_message, h80, h90, hB0, hC0]⟩,
              fun hk => ?_⟩
            rw [isKnownType] at hk
            simp [hC0] at hk
        · by_cases hE0 : status &&& 0xF0 = 0xE0
          · rw [requiredDataLen, if_neg h80, if_neg h90, if_neg hB0, if_neg hC0,
              if_pos hE0] at h
            rcases rest with _ | ⟨d1, _ | ⟨d2, rest'⟩⟩
            · simp at h
            · simp at h
            · refine ⟨⟨lineOf [strToChars "PITCH_BEND", natChars ((status &&& 0x0F) + 1),
                natChars ((d2 <<< 7) ||| d1)],
                by simp [format_midi_message, h80, h90, hB0, hC0, hE0]⟩, fun hk => ?_⟩
              rw [isKnownType] at hk
              simp [hE0] at hk
          · refine ⟨⟨lineOf [strToChars "UNKNOWN", hex2 status, natChars (rest.headD 0),
              natChars ((rest.drop 1).headD 0)],
              by simp [format_midi_message, h80, h90, hB0, hC0, hE0]⟩,
              fun _ => by simp [format_midi_message, h80, h90, hB0, hC0, hE0]⟩

/-- Witness for C3: the amended claim at a complete Note Off message and at
a bare unknown status byte `0xF7` (defaults `0 0`). -/
theorem C3_witness :
    (∃ l, format_midi_message [0x80, 60] = .ok (some l)) ∧
    format_midi_message [0xF7] = .ok (some (lineOf [strToChars "UNKNOWN", hex2 0xF7,
      natChars 0, natChars 0])) :=
  ⟨(C3_format_total_on_complete 0x80 [60] (by decide)).1,
   (C3_format_total_on_complete 0xF7 [] (by decide)).2 (by decide)⟩

/-- Claim C5, counterexample: decoding the line `PITCH_BEND 1 8192` does
NOT reproduce the wire bytes `[0xE0, 0, 64]` — `parse_midi_command` has no
`PITCH_BEND` arm and sends nothing. -/
theorem C5_counterexample :
    parse_midi_command true (strToChars "PITCH_BEND 1 8192") ≠ some [0xE0, 0, 64] ∧
    parse_midi_command true (strToChars "PITCH_BEND 1 8192") = none := by decide

/-- Claim C5, amended: the encode direction holds — wire bytes
`(lsb = 0, msb = 64)` encode to bend `(64 <<< 7) ||| 0 = 8192`, i.e. line
`PITCH_BEND 1 8192` — but `PITCH_BEND` is hardware→socket only: no line
whose first token is `PITCH_BEND` is accepted by `parse_midi_command`. -/
theorem C5_pitch_bend_one_way :
    format_midi_message [0xE0, 0, 64] = .ok (some (strToChars "PITCH_BEND 1 8192\n")) ∧
    ∀ (hasMidiOut : Bool) (line : Chars),
      (pySplit line).head? = some (strToChars "PITCH_BEND") →
      parse_midi_command hasMidiOut line = none := by
  refine ⟨rfl, fun hasMidiOut line hhead => ?_⟩
  unfold parse_midi_command
  cases hasMidiOut with
  | false => cases pySplit line <;> rfl
  | true =>
    rcases hsp : pySplit line with _ | ⟨cmd, args⟩
    · simp [hsp]
    · rw [hsp, List.head?_cons, Option.some.injEq] at hhead
      subst hhead
      simp only [hsp]
      rw [if_neg (by decide), if_neg (by decide), if_neg (by decide), if_neg (by decide)]

/-- Witness for C5: the amended claim's decode half at the concrete line. -/
theorem C5_witness :
    parse_midi_command true (strToChars "PITCH_BEND 1 8192") = none :=
  C5_pitch_bend_one_way.2 true (strToChars "PITCH_BEND 1 8192") (by decide)

/-- Claim C9: whenever the socket write of a formatted line fails
(`sendOk = false`), `midi_callback` clears the `running` flag. -/
theorem C9_send_failure_clears_running (st : BridgeState) (message : List Nat) (l : Chars)
    (hfmt : format_midi_message message = .ok (some l)) (hsock : st.sockPresent = true) :
    midi_callback st message false = .ok ⟨false, st.sockPresent⟩ := by
  obtain ⟨r, sp⟩ := st
  simp only at hsock
  subst hsock
  unfold midi_callback
  rw [hfmt]
  simp

/-- Witness for C9: a failing send of a formatted NoteOn clears `running`. -/
theorem C9_witness :
    midi_callback ⟨true, true⟩ [0x90, 60, 100] false = .ok ⟨false, true⟩ :=
  C9_send_failure_clears_running ⟨true, true⟩ [0x90, 60, 100]
    (strToChars "NOTE_ON 1 60 100\n") rfl rfl

/-- Claim C10: on every recognised command line — all four verbs `CC`,
`NOTE_ON`, `NOTE_OFF`, `PROGRAM_CHANGE`, with any extra trailing tokens
ignored — every integer channel token `c`, including 0 and negatives, is
accepted, and the status byte's channel nibble is `(c - 1) & 0x0F`, i.e.
`(c - 1)` wrapped modulo 16 into `[0, 16)`; the line is never dropped for
an out-of-range channel. -/
theorem C10_channel_wraps :
    (∀ (line t1 t2 t3 : Chars) (r : List Chars) (c x y : Int),
      pySplit line = strToChars "CC" :: t1 :: t2 :: t3 :: r →
      pyInt t1 = some c → pyInt t2 = some x → pyInt t3 = some y →
      parse_midi_command true line = some [0xB0 + (c - 1) % 16, x % 128, y % 128]) ∧
    (∀ (line t1 t2 t3 : Chars) (r : List Chars) (c x y : Int),
      pySplit line = strToChars "NOTE_ON" :: t1 :: t2 :: t3 :: r →
      pyInt t1 = some c → pyInt t2 = some x → pyInt t3 = some y →
      parse_midi_command true line = some [0x90 + (c - 1) % 16, x % 128, y % 128]) ∧
    (∀ (line t1 t2 : Chars) (r : List Chars) (c x : Int),
      pySplit line = strToChars "NOTE_OFF" :: t1 :: t2 :: r →
      pyInt t1 = some c → pyInt t2 = some x →
      parse_midi_command true line = some [0x80 + (c - 1) % 16, x % 128, 0]) ∧
    (∀ (line t1 t2 : Chars) (r : List Chars) (c x : Int),
      pySplit line = strToChars "PROGRAM_CHANGE" :: t1 :: t2 :: r →
      pyInt t1 = some c → pyInt t2 = some x →
      parse_midi_command true line = some [0xC0 + (c - 1) % 16, x % 128]) ∧
    (∀ c : Int, 0 ≤ (c - 1) % 16 ∧ (c - 1) % 16 < 16) := by
  refine ⟨?_, ?_, ?_, ?_,
    fun c => ⟨Int.emod_nonneg _ (by norm_num), Int.emod_lt_of_pos _ (by norm_num)⟩⟩
  · intro line t1 t2 t3 r c x y hsp h1 h2 h3
    unfold parse_midi_command
    rw [hsp]
    simp only [if_pos rfl]
    simp [h1, h2, h3, lor_B0_land, land_one27]
  · intro line t1 t2 t3 r c x y hsp h1 h2 h3
    unfold parse_midi_command
    rw [hsp]
    simp only [if_neg (by decide : ¬(strToChars "NOTE_ON" = strToChars "CC")), if_pos rfl]
    simp [h1, h2, h3, lor_90_land, land_one27]
  · intro line t1 t2 r c x hsp h1 h2
    unfold parse_midi_command
    rw [hsp]
    simp only [if_neg (by decide : ¬(strToChars "NOTE_OFF" = strToChars "CC")),
      if_neg (by decide : ¬(strToChars "NOTE_OFF" = strToChars "NOTE_ON")), if_pos rfl]
    simp [h1, h2, lor_80_land, land_one27]
  · intro line t1 t2 r c x hsp h1 h2
    unfold parse_midi_command
    rw [hsp]
    simp only [if_neg (by decide : ¬(strToChars "PROGRAM_CHANGE" = strToChars "CC")),
      if_neg (by decide : ¬(strToChars "PROGRAM_CHANGE" = strToChars "NOTE_ON")),
      if_neg (by decide : ¬(strToChars "PROGRAM_CHANGE" = strToChars "NOTE_OFF")),
      if_pos rfl]
    simp [h1, h2, lor_C0_land, land_one27]

theorem bind3_none (a b c : Option Int) (f : Int → Int → Int → Option (List Int))
    (h : a = none ∨ b = none ∨ c = none) :
    (a.bind fun x => b.bind fun y => c.bind fun z => f x y z) = none := by
  rcases h with rfl | rfl | rfl
  · rfl
  · cases a <;> rfl
  · cases a <;> cases b <;> rfl

theorem bind2_none (a b : Option Int) (f : Int → Int → Option (List Int))
    (h : a = none ∨ b = none) :
    (a.bind fun x => b.bind fun y => f x y) = none := by
  rcases h with rfl | rfl
  · rfl
  · cases a <;> rfl

/-- Claim C4, counterexample: in the hardware→socket direction the data
bytes are NOT masked before encoding to a text line — the over-range bytes
200 and 300 of a Control Change message appear verbatim in the emitted
line, not masked to 72 and 44. -/
theorem C4_counterexample :
    format_midi_message [0xB0, 200, 300] = .ok (some (strToChars "CC 1 200 300\n")) ∧
    strToChars "CC 1 200 300\n" ≠ strToChars "CC 1 72 44\n" := ⟨rfl, by decide⟩

/-- Claim C4, amended: masking to the field bit-widths holds in the
socket→hardware direction: every byte list `parse_midi_command` hands to
`send_message` consists of an in-range status byte followed by data bytes
masked to 7 bits.  (In the encode direction only the channel nibble of the
status byte is masked; data bytes pass through unmasked.) -/
theorem bind3_eq_some (a b c : Option Int) (f : Int → Int → Int → List Int)
    (msg : List Int)
    (h : (a.bind fun x => b.bind fun y => c.bind fun z => some (f x y z)) = some msg) :
    ∃ x y z, a = some x ∧ b = some y ∧ c = some z ∧ msg = f x y z := by
  cases a with
  | none => simp at h
  | some x =>
    cases b with
    | none => simp at h
    | some y =>
      cases c with
      | none => simp at h
      | some z =>
        simp at h
        exact ⟨x, y, z, rfl, rfl, rfl, h.symm⟩

theorem bind2_eq_some (a b : Option Int) (f : Int → Int → List Int) (msg : List Int)
    (h : (a.bind fun x => b.bind fun y => some (f x y)) = some msg) :
    ∃ x y, a = some x ∧ b = some y ∧ msg = f x y := by
  cases a with
  | none => simp at h
  | some x =>
    cases b with
    | none => simp at h
    | some y =>
      simp at h
      exact ⟨x, y, rfl, rfl, h.symm⟩

theorem C4_decode_masks (hasMidiOut : Bool) (line : Chars) (msg : List Int)
    (h : parse_midi_command hasMidiOut line = some msg) :
    (∀ b ∈ msg, 0 ≤ b ∧ b ≤ 255) ∧ ∀ b ∈ msg.tail, 0 ≤ b ∧ b ≤ 127 := by
  unfold parse_midi_command at h
  split at h
  · exact absurd h (by simp)
  · exact absurd h (by simp)
  · rename_i cmd args _
    split at h
    · split at h
      · obtain ⟨a, b, c, ha, hb, hc, rfl⟩ := bind3_eq_some _ _ _ _ msg h
        rw [lor_B0_land, land_one27, land_one27]
        have e1 := Int.emod_nonneg (a - 1) (by norm_num : (16 : Int) ≠ 0)
        have e2 := Int.emod_lt_of_pos (a - 1) (by norm_num : (0 : Int) < 16)
        have e3 := Int.emod_nonneg b (by norm_num : (128 : Int) ≠ 0)
        have e4 := Int.emod_lt_of_pos b (by norm_num : (0 : Int) < 128)
        have e5 := Int.emod_nonneg c (by norm_num : (128 : Int) ≠ 0)
        have e6 := Int.emod_lt_of_pos c (by norm_num : (0 : Int) < 128)
        constructor
        · intro x hx
          simp only [List.mem_cons, List.not_mem_nil, or_false] at hx
          rcases hx with rfl | rfl | rfl <;> omega
        · intro x hx
          simp only [List.tail_cons, List.mem_cons, List.not_mem_nil, or_false] at hx
          rcases hx with rfl | rfl <;> omega
      · exact absurd h (by simp)
    · split at h
      · split at h
        · obtain ⟨a, b, c, ha, hb, hc, rfl⟩ := bind3_eq_some _ _ _ _ msg h
          rw [lor_90_land, land_one27, land_one27]
          have e1 := Int.emod_nonneg (a - 1) (by norm_num : (16 : Int) ≠ 0)
          have e2 := Int.emod_lt_of_pos (a - 1) (by norm_num : (0 : Int) < 16)
          have e3 := Int.emod_nonneg b (by norm_num : (128 : Int) ≠ 0)
          have e4 := Int.emod_lt_of_pos b (by norm_num : (0 : Int) < 128)
          have e5 := Int.emod_nonneg c (by norm_num : (128 : Int) ≠ 0)
          have e6 := Int.emod_lt_of_pos c (by norm_num : (0 : Int) < 128)
          constructor
          · intro x hx
            simp only [List.mem_cons, List.not_mem_nil, or_false] at hx
            rcases hx with rfl | rfl | rfl <;> omega
          · intro x hx
            simp only [List.tail_cons, List.mem_cons, List.not_mem_nil, or_false] at hx
            rcases hx with rfl | rfl <;> omega
        · exact absurd h (by simp)
      · split at h
        · split at h
          · obtain ⟨a, b, ha, hb, rfl⟩ := bind2_eq_some _ _ _ msg h
            rw [lor_80_land, land_one27]
            have e1 := Int.emod_nonneg (a - 1) (by norm_num : (16 : Int) ≠ 0)
            have e2 := Int.emod_lt_of_pos (a - 1) (by norm_num : (0 : Int) < 16)
            have e3 := Int.emod_nonneg b (by norm_num : (128 : Int) ≠ 0)
            have e4 := Int.emod_lt_of_pos b (by norm_num : (0 : Int) < 128)
            constructor
            · intro x hx
              simp only [List.mem_cons, List.not_mem_nil, or_false] at hx
              rcases hx with rfl | rfl | rfl <;> omega
            · intro x hx
              simp only [List.tail_cons, List.mem_cons, List.not_mem_nil, or_false] at hx
              rcases hx with rfl | rfl <;> omega
          · exact absurd h (by simp)
        · split at h
          · split at h
            · obtain ⟨a, b, ha, hb, rfl⟩ := bind2_eq_some _ _ _ msg h
              rw [lor_C0_land, land_one27]
              have e1 := Int.emod_nonneg (a - 1) (by norm_num : (16 : Int) ≠ 0)
              have e2 := Int.emod_lt_of_pos (a - 1) (by norm_num : (0 : Int) < 16)
              have e3 := Int.emod_nonneg b (by norm_num : (128 : Int) ≠ 0)
              have e4 := Int.emod_lt_of_pos b (by norm_num : (0 : Int) < 128)
              constructor
              · intro x hx
                simp only [List.mem_cons, List.not_mem_nil, or_false] at hx
                rcases hx with rfl | rfl <;> omega
              · intro x hx
                simp only [List.tail_cons, List.mem_cons, List.not_mem_nil, or_false] at hx
                rcases hx with rfl
                omega
            · exact absurd h (by simp)
          · exact absurd h (by simp)

/-- Claim C6: for valid channel, note and nonzero velocity, decoding the
line produced by encoding a NoteOn message round-trips to the same raw
bytes (channel carried 1-indexed on the wire, 0-indexed in the status
nibble). -/
theorem C6_note_on_roundtrip (ch note vel : Nat)
    (h1 : 1 ≤ ch) (h2 : ch ≤ 16) (h3 : note ≤ 127) (h4 : 1 ≤ vel) (h5 : vel ≤ 127) :
    format_midi_message [0x90 + (ch - 1), note, vel]
      = .ok (some (lineOf [strToChars "NOTE_ON", natChars ch, natChars note,
          natChars vel])) ∧
    parse_midi_command true
        (lineOf [strToChars "NOTE_ON", natChars ch, natChars note, natChars vel])
      = some [((0x90 + (ch - 1) : Nat) : Int), (note : Int), (vel : Int)] := by
  have hc : ch - 1 < 16 := by omega
  obtain ⟨hA, hB⟩ := status_90_nibbles (ch - 1) hc
  have hvel : ¬(vel = 0) := by omega
  constructor
  · simp only [format_midi_message]
    rw [hA, hB]
    simp [hvel, Nat.sub_add_cancel h1]
  · have hwf : ∀ t ∈ [strToChars "NOTE_ON", natChars ch, natChars note, natChars vel],
        t ≠ [] ∧ ∀ c ∈ t, isWs c = false := by
      intro t ht
      simp only [List.mem_cons, List.not_mem_nil, or_false] at ht
      rcases ht with rfl | rfl | rfl | rfl
      · exact (by decide)
      · exact ⟨natChars_ne_nil ch, natChars_ws_free ch⟩
      · exact ⟨natChars_ne_nil note, natChars_ws_free note⟩
      · exact ⟨natChars_ne_nil vel, natChars_ws_free vel⟩
    have hsp := pySplit_lineOf _ hwf
    unfold parse_midi_command
    rw [hsp]
    simp only [if_neg (by decide : ¬(strToChars "NOTE_ON" = strToChars "CC")), if_pos rfl,
      pyInt_natChars]
    simp only [if_true, Option.bind_eq_bind, Option.some_bind]
    rw [lor_90_land, land_one27, land_one27]
    rw [Int.emod_eq_of_lt (by omega) (by omega : (ch : Int) - 1 < 16)]
    rw [Int.emod_eq_of_lt (by omega) (by omega : (note : Int) < 128)]
    rw [Int.emod_eq_of_lt (by omega) (by omega : (vel : Int) < 128)]
    have hcast : (144 : Int) + ((ch : Int) - 1) = ((144 + (ch - 1) : Nat) : Int) := by omega
    rw [hcast]

/-- Witness for C6: channel 1, note 60, velocity 100 round-trips through the
codec. -/
theorem C6_witness :
    format_midi_message [0x90, 60, 100]
      = .ok (some (lineOf [strToChars "NOTE_ON", natChars 1, natChars 60, natChars 100])) ∧
    parse_midi_command true
        (lineOf [strToChars "NOTE_ON", natChars 1, natChars 60, natChars 100])
      = some [(0x90 : Int), 60, 100] :=
  C6_note_on_roundtrip 1 60 100 (by decide) (by decide) (by decide) (by decide) (by decide)

/-- Claim C7: a NoteOn message with velocity 0 always encodes to a NOTE_OFF
line, never to a NOTE_ON line. -/
theorem C7_velocity_zero_is_note_off (status note : Nat) (h : status &&& 0xF0 = 0x90) :
    format_midi_message [status, note, 0]
      = .ok (some (lineOf [strToChars "NOTE_OFF", natChars ((status &&& 0x0F) + 1),
          natChars note])) ∧
    format_midi_message [status, note, 0]
      ≠ .ok (some (lineOf [strToChars "NOTE_ON", natChars ((status &&& 0x0F) + 1),
          natChars note, natChars 0])) := by
  have h80 : ¬(status &&& 0xF0 = 0x80) := by rw [h]; decide
  have hfmt : format_midi_message [status, note, 0]
      = .ok (some (lineOf [strToChars "NOTE_OFF", natChars ((status &&& 0x0F) + 1),
          natChars note])) := by
    simp only [format_midi_message]
    rw [if_neg h80, if_pos h]
    simp
  refine ⟨hfmt, ?_⟩
  rw [hfmt]
  intro heq
  rw [Except.ok.injEq, Option.some.injEq] at heq
  have hlen := congrArg List.length heq
  simp only [show natChars (0 : Nat) = ['0'] from rfl, lineOf, joinTokens, noteoff_chars,
    noteon_chars, List.length_append, List.length_cons, List.length_nil] at hlen
  omega

/-- Witness for C7: raw bytes `[0x90, 60, 0]` emit `NOTE_OFF 1 60`, not
`NOTE_ON 1 60 0`. -/
theorem C7_witness :
    format_midi_message [0x90, 60, 0] = .ok (some (strToChars "NOTE_OFF 1 60\n")) ∧
    format_midi_message [0x90, 60, 0] ≠ .ok (some (strToChars "NOTE_ON 1 60 0\n")) :=
  C7_velocity_zero_is_note_off 0x90 60 (by decide)

/-- Witness for C4: the spec's own example `CC 1 200 300` — controller
`200 & 0x7F = 72`, value `300 & 0x7F = 44` — satisfies the masked bounds. -/
theorem C4_witness :
    parse_midi_command true (strToChars "CC 1 200 300") = some [0xB0, 72, 44] ∧
    ((∀ b ∈ [(0xB0 : Int), 72, 44], 0 ≤ b ∧ b ≤ 255) ∧
      ∀ b ∈ ([(0xB0 : Int), 72, 44]).tail, 0 ≤ b ∧ b ≤ 127) :=
  ⟨by decide, C4_decode_masks true (strToChars "CC 1 200 300") [0xB0, 72, 44] (by decide)⟩

/-- Witness for C10: on a `CC` line channel token `0` wraps to nibble 15
(status `0xBF = 191`), and on a `NOTE_OFF` line channel token `17` wraps to
nibble 0 (status `0x80 = 128`); nothing is rejected. -/
theorem C10_witness :
    parse_midi_command true (strToChars "CC 0 5 6") = some [191, 5, 6] ∧
    parse_midi_command true (strToChars "NOTE_OFF 17 9") = some [128, 9, 0] := by
  constructor
  · have h := C10_channel_wraps.1 (strToChars "CC 0 5 6") (strToChars "0") (strToChars "5")
      (strToChars "6") [] 0 5 6 (by decide) (by decide) (by decide) (by decide)
    rw [h]
    decide
  · have h := C10_channel_wraps.2.2.1 (strToChars "NOTE_OFF 17 9") (strToChars "17")
      (strToChars "9") [] 17 9 (by decide) (by decide) (by decide)
    rw [h]
    decide


/-- Claim C8: an input line whose first token is not a recognised verb, or
whose recognised verb has too few arguments, or one of whose used arguments
is not numeric, produces no `send_message` call (the `int()` failure is
swallowed by the `try/except`), and the read loop simply continues — the
bridge is not terminated. -/
theorem C8_malformed_dropped (hasMidiOut : Bool) (line : Chars)
    (h : ∀ cmd args, pySplit line = cmd :: args →
      cmd ∉ [strToChars "CC", strToChars "NOTE_ON", strToChars "NOTE_OFF",
        strToChars "PROGRAM_CHANGE"] ∨
      args.length < requiredArgs cmd ∨
      ∃ t ∈ args.take (requiredArgs cmd), pyInt t = none) :
    parse_midi_command hasMidiOut line = none ∧
    ('\n' ∉ line → socket_listener hasMidiOut true [] [RecvResult.chunk (line ++ ['\n'])]
      = ⟨false, true, []⟩) := by
  have hparse : parse_midi_command hasMidiOut line = none := by
    unfold parse_midi_command
    cases hasMidiOut with
    | false => cases pySplit line <;> rfl
    | true =>
      rcases hsp : pySplit line with _ | ⟨cmd, args⟩
      · simp [hsp]
      · simp only [hsp]
        by_cases hcc : cmd = strToChars "CC"
        · subst hcc
          rw [if_pos rfl]
          rcases h _ _ hsp with hbad | hlen | ⟨t, ht, hnone⟩
          · exact absurd (List.mem_cons_self _ _) hbad
          · have hreq : requiredArgs (strToChars "CC") = 3 := by decide
            rw [hreq] at hlen
            rcases args with _ | ⟨t1, _ | ⟨t2, _ | ⟨t3, r⟩⟩⟩
            · rfl
            · rfl
            · rfl
            · simp only [List.length_cons] at hlen; omega
          · have hreq : requiredArgs (strToChars "CC") = 3 := by decide
            rw [hreq] at ht
            rcases args with _ | ⟨t1, _ | ⟨t2, _ | ⟨t3, r⟩⟩⟩
            · simp at ht
            · rfl
            · rfl
            · simp only [List.take_succ_cons, List.take_zero, List.mem_cons,
                List.not_mem_nil, or_false] at ht
              refine bind3_none _ _ _ _ ?_
              rcases ht with rfl | rfl | rfl
              · exact Or.inl hnone
              · exact Or.inr (Or.inl hnone)
              · exact Or.inr (Or.inr hnone)
        · rw [if_neg hcc]
          by_cases hno : cmd = strToChars "NOTE_ON"
          · subst hno
            rw [if_pos rfl]
            rcases h _ _ hsp with hbad | hlen | ⟨t, ht, hnone⟩
            · exact absurd (by decide) hbad
            · have hreq : requiredArgs (strToChars "NOTE_ON") = 3 := by decide
              rw [hreq] at hlen
              rcases args with _ | ⟨t1, _ | ⟨t2, _ | ⟨t3, r⟩⟩⟩
              · rfl
              · rfl
              · rfl
              · simp only [List.length_cons] at hlen; omega
            · have hreq : requiredArgs (strToChars "NOTE_ON") = 3 := by decide
              rw [hreq] at ht
              rcases args with _ | ⟨t1, _ | ⟨t2, _ | ⟨t3, r⟩⟩⟩
              · simp at ht
              · rfl
              · rfl
              · simp only [List.take_succ_cons, List.take_zero, List.mem_cons,
                  List.not_mem_nil, or_false] at ht
                refine bind3_none _ _ _ _ ?_
                rcases ht with rfl | rfl | rfl
                · exact Or.inl hnone
                · exact Or.inr (Or.inl hnone)
                · exact Or.inr (Or.inr hnone)
          · rw [if_neg hno]
            by_cases hnoff : cmd = strToChars "NOTE_OFF"
            · subst hnoff
              rw [if_pos rfl]
              rcases h _ _ hsp with hbad | hlen | ⟨t, ht, hnone⟩
              · exact absurd (by decide) hbad
              · have hreq : requiredArgs (strToChars "NOTE_OFF") = 2 := by decide
                rw [hreq] at hlen
                rcases args with _ | ⟨t1, _ | ⟨t2, r⟩⟩
                · rfl
                · rfl
                · simp only [List.length_cons] at hlen; omega
              · have hreq : requiredArgs (strToChars "NOTE_OFF") = 2 := by decide
                rw [hreq] at ht
                rcases args with _ | ⟨t1, _ | ⟨t2, r⟩⟩
                · simp at ht
                · rfl
                · simp only [List.take_succ_cons, List.take_zero, List.mem_cons,
                    List.not_mem_nil, or_false] at ht
                  refine bind2_none _ _ _ ?_
                  rcases ht with rfl | rfl
                  · exact Or.inl hnone
                  · exact Or.inr hnone
            · rw [if_neg hnoff]
              by_cases hpc : cmd = strToChars "PROGRAM_CHANGE"
              · subst hpc
                rw [if_pos rfl]
                rcases h _ _ hsp with hbad | hlen | ⟨t, ht, hnone⟩
                · exact absurd (by decide) hbad
                · have hreq : requiredArgs (strToChars "PROGRAM_CHANGE") = 2 := by decide
                  rw [hreq] at hlen
                  rcases args with _ | ⟨t1, _ | ⟨t2, r⟩⟩
                  · rfl
                  · rfl
                  · simp only [List.length_cons] at hlen; omega
                · have hreq : requiredArgs (strToChars "PROGRAM_CHANGE") = 2 := by decide
                  rw [hreq] at ht
                  rcases args with _ | ⟨t1, _ | ⟨t2, r⟩⟩
                  · simp at ht
                  · rfl
                  · simp only [List.take_succ_cons, List.take_zero, List.mem_cons,
                      List.not_mem_nil, or_false] at ht
                    refine bind2_none _ _ _ ?_
                    rcases ht with rfl | rfl
                    · exact Or.inl hnone
                    · exact Or.inr hnone
              · rw [if_neg hpc]
  refine ⟨hparse, fun hnl => ?_⟩
  have hne : ¬(line ++ ['\n'] = ([] : Chars)) := by simp
  simp only [socket_listener, if_true]
  rw [if_neg hne]
  simp only [List.nil_append]
  rw [splitNl_append_nl line hnl]
  simp only [show List.dropLast [line, ([] : Chars)] = [line] from rfl,
    show List.getLastD [line, ([] : Chars)] [] = [] from rfl]
  have hsend : (if line = [] then none else parse_midi_command hasMidiOut line)
      = (none : Option (List Int)) := by
    by_cases hl : line = []
    · rw [if_pos hl]
    · rw [if_neg hl, hparse]
  simp [List.filterMap, hsend, socket_listener]

/-- Witness for C8: the line `GARBAGE foo bar` sends nothing and leaves the
listener looping with `running` still true. -/
theorem C8_witness :
    parse_midi_command true (strToChars "GARBAGE foo bar") = none ∧
    socket_listener true true [] [RecvResult.chunk (strToChars "GARBAGE foo bar" ++ ['\n'])]
      = ⟨false, true, []⟩ := by
  have h := C8_malformed_dropped true (strToChars "GARBAGE foo bar")
    (by
      intro cmd args hsp
      rw [show pySplit (strToChars "GARBAGE foo bar")
          = [strToChars "GARBAGE", strToChars "foo", strToChars "bar"] from by decide] at hsp
      rw [List.cons.injEq] at hsp
      obtain ⟨rfl, rfl⟩ := hsp
      left
      decide)
  exact ⟨h.1, h.2 (by decide)⟩

end TMC
